import Mathlib

/-
Verification of the plan service of go-tfe (src/plan.go): the plan data
model, the operations Read, Logs, ReadJSONOutput and ReadResourceChanges,
and the completion oracle (the `done` closure built inside Logs).

Shallow embedding conventions:
  - External collaborators (HTTP client, ID validator, URL parser, JSON
    decoder) are fields of a `ClientEnv` record; the embedded operations
    are deterministic functions of that record.
  - Network effects are made observable through an explicit trace: each
    operation takes the list of remote calls issued so far (the world)
    and returns it extended with the calls it performed.  Remote
    responses may depend on the position in the trace, modelling a remote
    job whose status changes between polls.
  - Go byte slices are `List Nat`, Go errors are the inductive `GoErr`,
    a fallible Go call returns `Except GoErr`.
-/

/-- Go error values reachable from src/plan.go.  `errInvalidPlanID` is the
package-level ErrInvalidPlanID sentinel; `noLogURL` is the formatted error
from `fmt.Errorf("plan %s does not have a log URL", planID)`; `invalidLogURL`
wraps a URL-parse failure as in `fmt.Errorf("invalid log URL: %w", err)`;
the remaining constructors stand for errors produced by the external
collaborators (transport, request building, JSON decoding). -/
inductive GoErr where
  | errInvalidPlanID : GoErr
  | transport (msg : String) : GoErr
  | requestBuild (msg : String) : GoErr
  | noLogURL (planID : String) : GoErr
  | invalidLogURL (inner : GoErr) : GoErr
  | jsonDecode (msg : String) : GoErr
deriving DecidableEq, Repr

/-- PlanStatus constants of src/plan.go lines 46-56: one constructor per
declared constant. -/
inductive PlanStatus where
  | planCanceled : PlanStatus
  | planCreated : PlanStatus
  | planErrored : PlanStatus
  | planFinished : PlanStatus
  | planMFAWaiting : PlanStatus
  | planPending : PlanStatus
  | planQueued : PlanStatus
  | planRunning : PlanStatus
  | planUnreachable : PlanStatus
deriving DecidableEq, Repr

/-- The string value of each PlanStatus constant, exactly as written in
src/plan.go lines 47-55. -/
def PlanStatus.value : PlanStatus → String
  | PlanStatus.planCanceled => "canceled"
  | PlanStatus.planCreated => "created"
  | PlanStatus.planErrored => "errored"
  | PlanStatus.planFinished => "finished"
  | PlanStatus.planMFAWaiting => "mfa_waiting"
  | PlanStatus.planPending => "pending"
  | PlanStatus.planQueued => "queued"
  | PlanStatus.planRunning => "running"
  | PlanStatus.planUnreachable => "unreachable"

/-- PlanStatusTimestamps (src/plan.go lines 76-83); time.Time values are
modelled as integers. -/
structure PlanStatusTimestamps where
  canceledAt : Int
  erroredAt : Int
  finishedAt : Int
  forceCanceledAt : Int
  queuedAt : Int
  startedAt : Int
deriving DecidableEq, Repr

/-- PlanExport is referenced by Plan as a relation; its definition lives
outside src/, so it is modelled as an opaque record carrying only an
identifier. -/
structure PlanExport where
  id : String
deriving DecidableEq, Repr

/-- Plan (src/plan.go lines 59-73). -/
structure Plan where
  id : String
  hasChanges : Bool
  generatedConfiguration : Bool
  logReadURL : String
  resourceAdditions : Int
  resourceChanges : Int
  resourceDestructions : Int
  resourceImports : Int
  status : PlanStatus
  statusTimestamps : Option PlanStatusTimestamps
  exports : List PlanExport
deriving DecidableEq, Repr

/-- A JSON value, modelling the Go `interface{}` fields of Change and
ResourceChange; numbers are modelled as integers. -/
inductive JSONValue where
  | null : JSONValue
  | bool (b : Bool) : JSONValue
  | num (n : Int) : JSONValue
  | str (s : String) : JSONValue
  | arr (xs : List JSONValue) : JSONValue
  | obj (fields : List (String × JSONValue)) : JSONValue

/-- Change (src/plan.go lines 97-104). -/
structure Change where
  actions : List String
  after : JSONValue
  afterSensitive : JSONValue
  afterUnknown : JSONValue
  before : JSONValue
  beforeSensitive : JSONValue

/-- ResourceChange (src/plan.go lines 86-94). -/
structure ResourceChange where
  address : String
  change : Change
  index : JSONValue
  mode : String
  name : String
  providerName : String
  type : String

/-- PlanResourceChanges (src/plan.go lines 107-109). -/
structure PlanResourceChanges where
  resourceChanges : List ResourceChange

/-- A URL value produced by url.Parse; the parse itself is a collaborator
in ClientEnv, so only the raw text is kept. -/
structure ParsedURL where
  raw : String
deriving DecidableEq, Repr

/-- One remote HTTP request, as recorded in the world trace.
`getPlanRecord` is a GET decoded into a Plan (req.Do(ctx, p) in Read);
`getRawBody` is a GET copied into a bytes.Buffer (ReadJSONOutput,
ReadResourceChanges); `getLogChunk` is a fetch of log content at an
offset, issued only by the log stream reader, never by the functions of
src/plan.go. -/
inductive RemoteCall where
  | getPlanRecord (path : String) : RemoteCall
  | getRawBody (path : String) : RemoteCall
  | getLogChunk (offset : Nat) : RemoteCall
deriving DecidableEq, Repr

/-- The number of log-chunk fetches recorded in a world trace. -/
def countLogChunks (w : List RemoteCall) : Nat :=
  (w.filter fun c =>
    match c with
    | RemoteCall.getLogChunk _ => true
    | _ => false).length

/-- The external collaborators of the plan service.  `validStringID` is
the ID-format validator, `queryEscape` is url.QueryEscape,
`newRequestFails` gives the error of client.NewRequest("GET", path, nil)
when it fails, `doPlan t path` is the result of req.Do decoding a Plan
when the request is the t-th remote call, `doRaw t path` likewise for a
raw body, `parseURL` is url.Parse, and `unmarshalResourceChanges` is
json.Unmarshal into a PlanResourceChanges.  Responses are indexed by the
trace position so that the remote status may change between polls. -/
structure ClientEnv where
  validStringID : String → Bool
  queryEscape : String → String
  newRequestFails : String → Option GoErr
  doPlan : Nat → String → Except GoErr Plan
  doRaw : Nat → String → Except GoErr (List Nat)
  parseURL : String → Except GoErr ParsedURL
  unmarshalResourceChanges : List Nat → Except GoErr PlanResourceChanges

/-- plans.Read (src/plan.go lines 112-130): validate the ID, build the
request for "plans/<id>", issue it and decode a Plan.  Returns the result
together with the extended world trace. -/
def plansRead (env : ClientEnv) (planID : String) (w : List RemoteCall) :
    Except GoErr Plan × List RemoteCall :=
  if env.validStringID planID = false then
    (Except.error GoErr.errInvalidPlanID, w)
  else
    let u := "plans/" ++ env.queryEscape planID
    match env.newRequestFails u with
    | some e => (Except.error e, w)
    | none =>
      match env.doPlan w.length u with
      | Except.error e => (Except.error e, w ++ [RemoteCall.getPlanRecord u])
      | Except.ok p => (Except.ok p, w ++ [RemoteCall.getPlanRecord u])

/-- The `done` closure built inside plans.Logs (src/plan.go lines
154-166), applied to the captured plan ID: re-read the plan; on error
return (false, err); otherwise return (true, nil) exactly on the four
statuses of the switch, (false, nil) on the default branch. -/
def logsDone (env : ClientEnv) (pID : String) (w : List RemoteCall) :
    (Bool × Option GoErr) × List RemoteCall :=
  match plansRead env pID w with
  | (Except.error e, w1) => ((false, some e), w1)
  | (Except.ok p, w1) =>
    match p.status with
    | PlanStatus.planCanceled => ((true, none), w1)
    | PlanStatus.planErrored => ((true, none), w1)
    | PlanStatus.planFinished => ((true, none), w1)
    | PlanStatus.planUnreachable => ((true, none), w1)
    | _ => ((false, none), w1)

/-- The LogReader value constructed by plans.Logs (src/plan.go lines
168-173).  The client and context fields are the ambient environment; the
`done` closure is represented by the plan ID it captured (the closure
itself is `logsDone env donePlanID`). -/
structure LogReader where
  donePlanID : String
  logURL : ParsedURL
deriving DecidableEq, Repr

/-- plans.Logs (src/plan.go lines 133-174): validate the ID, read the
plan, fail if LogReadURL is empty, parse the URL (wrapping a failure),
and build the LogReader with the `done` closure bound to p.ID. -/
def plansLogs (env : ClientEnv) (planID : String) (w : List RemoteCall) :
    Except GoErr LogReader × List RemoteCall :=
  if env.validStringID planID = false then
    (Except.error GoErr.errInvalidPlanID, w)
  else
    match plansRead env planID w with
    | (Except.error e, w1) => (Except.error e, w1)
    | (Except.ok p, w1) =>
      if p.logReadURL = "" then
        (Except.error (GoErr.noLogURL planID), w1)
      else
        match env.parseURL p.logReadURL with
        | Except.error e => (Except.error (GoErr.invalidLogURL e), w1)
        | Except.ok u =>
          (Except.ok { donePlanID := p.id, logURL := u }, w1)

/-- plans.ReadJSONOutput (src/plan.go lines 177-195): validate the ID,
build the request for "plans/<id>/json-output", issue it and return the
raw body bytes unchanged. -/
def plansReadJSONOutput (env : ClientEnv) (planID : String)
    (w : List RemoteCall) : Except GoErr (List Nat) × List RemoteCall :=
  if env.validStringID planID = false then
    (Except.error GoErr.errInvalidPlanID, w)
  else
    let u := "plans/" ++ env.queryEscape planID ++ "/json-output"
    match env.newRequestFails u with
    | some e => (Except.error e, w)
    | none =>
      match env.doRaw w.length u with
      | Except.error e => (Except.error e, w ++ [RemoteCall.getRawBody u])
      | Except.ok bs => (Except.ok bs, w ++ [RemoteCall.getRawBody u])

/-- plans.ReadResourceChanges (src/plan.go lines 198-221): validate the
ID, build the request for "plans/<id>/json-output-redacted", issue it,
then json.Unmarshal the body into a PlanResourceChanges, failing on a
decode error. -/
def plansReadResourceChanges (env : ClientEnv) (planID : String)
    (w : List RemoteCall) :
    Except GoErr PlanResourceChanges × List RemoteCall :=
  if env.validStringID planID = false then
    (Except.error GoErr.errInvalidPlanID, w)
  else
    let u := "plans/" ++ env.queryEscape planID ++ "/json-output-redacted"
    match env.newRequestFails u with
    | some e => (Except.error e, w)
    | none =>
      match env.doRaw w.length u with
      | Except.error e => (Except.error e, w ++ [RemoteCall.getRawBody u])
      | Except.ok bs =>
        match env.unmarshalResourceChanges bs with
        | Except.error e => (Except.error e, w ++ [RemoteCall.getRawBody u])
        | Except.ok rc => (Except.ok rc, w ++ [RemoteCall.getRawBody u])

/-- The terminal statuses as the spec lists them: finished, errored,
canceled, unreachable. -/
def specTerminalStatuses : List PlanStatus :=
  [PlanStatus.planFinished, PlanStatus.planErrored,
   PlanStatus.planCanceled, PlanStatus.planUnreachable]

/-- The plan statuses whose string values appear in spec section 3 (the
claimed closed enumeration), for comparison against the declared
constants. -/
def specClaimedStatusValues : List String :=
  ["queued", "pending", "running", "mfa-waiting", "finished", "errored",
   "canceled", "unreachable"]

/-- The string values of the constants actually declared in src/plan.go
lines 46-56, in declaration order. -/
def codeStatusValues : List String :=
  ["canceled", "created", "errored", "finished", "mfa_waiting", "pending",
   "queued", "running", "unreachable"]

/-- A sample plan record used by concrete witnesses. -/
def samplePlan : Plan :=
  { id := "plan-1"
    hasChanges := true
    generatedConfiguration := false
    logReadURL := "https://app.example.io/logs/plan-1"
    resourceAdditions := 1
    resourceChanges := 0
    resourceDestructions := 0
    resourceImports := 0
    status := PlanStatus.planFinished
    statusTimestamps := none
    exports := [] }

/-- A concrete environment where every collaborator succeeds (except the
JSON decoder, which rejects every body, exercising the decode-error
paths). -/
def envOk : ClientEnv :=
  { validStringID := fun s => decide (s ≠ "")
    queryEscape := fun s => s
    newRequestFails := fun _ => none
    doPlan := fun _ _ => Except.ok samplePlan
    doRaw := fun _ _ => Except.ok [123, 125]
    parseURL := fun s => Except.ok { raw := s }
    unmarshalResourceChanges := fun _ =>
      Except.error (GoErr.jsonDecode "invalid character") }

/-- envOk with a failing plan fetch. -/
def envReadFails : ClientEnv :=
  { envOk with doPlan := fun _ _ =>
      Except.error (GoErr.transport "connection refused") }

/-- envOk but the fetched plan has an empty LogReadURL. -/
def envEmptyURL : ClientEnv :=
  { envOk with doPlan := fun _ _ =>
      Except.ok { samplePlan with logReadURL := "" } }

/-- envOk but url.Parse rejects the log URL. -/
def envBadURL : ClientEnv :=
  { envOk with parseURL := fun _ =>
      Except.error (GoErr.requestBuild "parse: invalid control character") }

/-- C1: for every plan record fetched successfully by the completion
oracle, the `done` closure of Logs returns (true, nil) exactly when the
status is one of finished, errored, canceled, unreachable, and
(false, nil) for every other status. -/
theorem done_terminal_classification (env : ClientEnv) (pID : String)
    (w w1 : List RemoteCall) (p : Plan)
    (hre : plansRead env pID w = (Except.ok p, w1)) :
    logsDone env pID w =
      ((decide (p.status ∈ specTerminalStatuses), none), w1) := by
  unfold logsDone
  rw [hre]
  obtain ⟨pid, hc, gc, url, ra, rc, rd, ri, status, ts, ex⟩ := p
  cases status <;> rfl

/-- Witness for C1: the oracle on a concrete finished plan answers
(true, nil) after one fresh fetch. -/
theorem done_terminal_classification_witness :
    logsDone envOk "plan-1" [] =
      ((true, none), [RemoteCall.getPlanRecord "plans/plan-1"]) :=
  done_terminal_classification envOk "plan-1" []
    [RemoteCall.getPlanRecord "plans/plan-1"] samplePlan rfl

/-- C5: when the plan fetch inside the `done` closure fails with error e,
the closure returns (false, e), propagating the error unchanged. -/
theorem done_propagates_error (env : ClientEnv) (pID : String)
    (w w1 : List RemoteCall) (e : GoErr)
    (hre : plansRead env pID w = (Except.error e, w1)) :
    logsDone env pID w = ((false, some e), w1) := by
  unfold logsDone
  rw [hre]

/-- Witness for C5: a concrete transport failure comes back unchanged. -/
theorem done_propagates_error_witness :
    logsDone envReadFails "plan-1" [] =
      ((false, some (GoErr.transport "connection refused")),
       [RemoteCall.getPlanRecord "plans/plan-1"]) :=
  done_propagates_error envReadFails "plan-1" []
    [RemoteCall.getPlanRecord "plans/plan-1"]
    (GoErr.transport "connection refused") rfl

/-- C4: when the plan ID fails validStringID, each of Read, Logs,
ReadJSONOutput and ReadResourceChanges returns ErrInvalidPlanID with a
nil result and an unchanged world trace (no network request). -/
theorem invalid_id_rejected (env : ClientEnv) (planID : String)
    (w : List RemoteCall) (hv : env.validStringID planID = false) :
    plansRead env planID w = (Except.error GoErr.errInvalidPlanID, w)
  ∧ plansLogs env planID w = (Except.error GoErr.errInvalidPlanID, w)
  ∧ plansReadJSONOutput env planID w =
      (Except.error GoErr.errInvalidPlanID, w)
  ∧ plansReadResourceChanges env planID w =
      (Except.error GoErr.errInvalidPlanID, w) := by
  refine ⟨?_, ?_, ?_, ?_⟩ <;>
    simp [plansRead, plansLogs, plansReadJSONOutput,
      plansReadResourceChanges, hv]

/-- Witness for C4: the empty string fails validation in envOk and all
four operations reject it without touching the network. -/
theorem invalid_id_rejected_witness :
    plansRead envOk "" [] = (Except.error GoErr.errInvalidPlanID, [])
  ∧ plansLogs envOk "" [] = (Except.error GoErr.errInvalidPlanID, [])
  ∧ plansReadJSONOutput envOk "" [] =
      (Except.error GoErr.errInvalidPlanID, [])
  ∧ plansReadResourceChanges envOk "" [] =
      (Except.error GoErr.errInvalidPlanID, []) :=
  invalid_id_rejected envOk "" [] rfl

/-- C6 counterexample: the spec's claimed enumeration (queued, pending,
running, mfa-waiting, finished, errored, canceled, unreachable) does not
match the declared constants: PlanCreated has value "created", which is
not in the spec's list. -/
theorem plan_status_enum_spec_false :
    ¬ (∀ s : String,
        (∃ p : PlanStatus, PlanStatus.value p = s) ↔
          s ∈ specClaimedStatusValues) := by
  intro h
  have h1 : ("created" : String) ∈ specClaimedStatusValues :=
    (h "created").mp ⟨PlanStatus.planCreated, rfl⟩
  exact absurd h1 (by decide)

/-- C6 amended: the plan status type is a closed enumeration whose values
are exactly canceled, created, errored, finished, mfa_waiting, pending,
queued, running, unreachable (nine distinct constants). -/
theorem plan_status_enum_exact :
    (∀ p : PlanStatus, PlanStatus.value p ∈ codeStatusValues)
  ∧ (∀ s : String, s ∈ codeStatusValues →
      ∃ p : PlanStatus, PlanStatus.value p = s)
  ∧ (∀ p q : PlanStatus, PlanStatus.value p = PlanStatus.value q →
      p = q) := by
  refine ⟨?_, ?_, ?_⟩
  · intro p
    cases p <;> decide
  · intro s hs
    fin_cases hs
    · exact ⟨PlanStatus.planCanceled, rfl⟩
    · exact ⟨PlanStatus.planCreated, rfl⟩
    · exact ⟨PlanStatus.planErrored, rfl⟩
    · exact ⟨PlanStatus.planFinished, rfl⟩
    · exact ⟨PlanStatus.planMFAWaiting, rfl⟩
    · exact ⟨PlanStatus.planPending, rfl⟩
    · exact ⟨PlanStatus.planQueued, rfl⟩
    · exact ⟨PlanStatus.planRunning, rfl⟩
    · exact ⟨PlanStatus.planUnreachable, rfl⟩
  · intro p q h
    cases p <;> cases q <;> first | rfl | exact absurd h (by decide)

/-- Witness for C6 amended: "mfa_waiting" is in the code's value list and
is the value of a declared constant. -/
theorem plan_status_enum_exact_witness :
    ("mfa_waiting" : String) ∈ codeStatusValues
  ∧ (∃ p : PlanStatus, PlanStatus.value p = "mfa_waiting") :=
  ⟨by decide, plan_status_enum_exact.2.1 "mfa_waiting" (by decide)⟩

/-- Helper: plansRead records at most one remote call, and that call is
the plan-record GET; in particular it never fetches a log chunk. -/
theorem countLogChunks_plansRead (env : ClientEnv) (pID : String)
    (w : List RemoteCall) :
    countLogChunks (plansRead env pID w).2 = countLogChunks w := by
  unfold plansRead
  by_cases hv : env.validStringID pID = false
  · simp [hv]
  · simp only [hv, if_false]
    cases hreq : env.newRequestFails ("plans/" ++ env.queryEscape pID) with
    | some e => rfl
    | none =>
      cases hdo : env.doPlan w.length ("plans/" ++ env.queryEscape pID) with
      | error e => simp [countLogChunks, List.filter_append]
      | ok p => simp [countLogChunks, List.filter_append]

/-- Helper: a successful plansRead implies the ID passed validation. -/
theorem plansRead_ok_valid (env : ClientEnv) (pID : String)
    (w w1 : List RemoteCall) (p : Plan)
    (hre : plansRead env pID w = (Except.ok p, w1)) :
    env.validStringID pID = true := by
  by_cases hv : env.validStringID pID = false
  · unfold plansRead at hre
    rw [hv] at hre
    simp at hre
  · simpa using hv

/-- C3: when the plan record is fetched successfully but its LogReadURL
is empty, Logs returns the "does not have a log URL" error (with a nil
reader) and performs no log-chunk fetch. -/
theorem logs_missing_url (env : ClientEnv) (pID : String)
    (w w1 : List RemoteCall) (p : Plan)
    (hre : plansRead env pID w = (Except.ok p, w1))
    (hurl : p.logReadURL = "") :
    plansLogs env pID w = (Except.error (GoErr.noLogURL pID), w1)
  ∧ countLogChunks w1 = countLogChunks w := by
  have hv := plansRead_ok_valid env pID w w1 p hre
  constructor
  · unfold plansLogs
    rw [hv]
    simp only [Bool.true_eq_false, if_false]
    rw [hre]
    dsimp only
    rw [if_pos hurl]
  · have h2 := countLogChunks_plansRead env pID w
    rw [hre] at h2
    exact h2

/-- Witness for C3: a concrete plan with an empty log URL is rejected at
stream construction. -/
theorem logs_missing_url_witness :
    plansLogs envEmptyURL "plan-1" [] =
      (Except.error (GoErr.noLogURL "plan-1"),
       [RemoteCall.getPlanRecord "plans/plan-1"])
  ∧ countLogChunks [RemoteCall.getPlanRecord "plans/plan-1"] =
      countLogChunks [] :=
  logs_missing_url envEmptyURL "plan-1" []
    [RemoteCall.getPlanRecord "plans/plan-1"]
    { samplePlan with logReadURL := "" } rfl rfl

/-- C10: when the plan record is fetched successfully, its LogReadURL is
non-empty, and url.Parse rejects it, Logs returns a nil reader and the
wrapping "invalid log URL" error before any LogReader is built, with no
log-chunk fetch. -/
theorem logs_invalid_url (env : ClientEnv) (pID : String)
    (w w1 : List RemoteCall) (p : Plan) (e : GoErr)
    (hre : plansRead env pID w = (Except.ok p, w1))
    (hurl : p.logReadURL ≠ "")
    (hparse : env.parseURL p.logReadURL = Except.error e) :
    plansLogs env pID w = (Except.error (GoErr.invalidLogURL e), w1)
  ∧ countLogChunks w1 = countLogChunks w := by
  have hv := plansRead_ok_valid env pID w w1 p hre
  constructor
  · unfold plansLogs
    rw [hv]
    simp only [Bool.true_eq_false, if_false]
    rw [hre]
    dsimp only
    rw [if_neg hurl, hparse]
  · have h2 := countLogChunks_plansRead env pID w
    rw [hre] at h2
    exact h2

/-- Witness for C10: a concrete unparsable log URL yields the wrapped
parse error. -/
theorem logs_invalid_url_witness :
    plansLogs envBadURL "plan-1" [] =
      (Except.error (GoErr.invalidLogURL
        (GoErr.requestBuild "parse: invalid control character")),
       [RemoteCall.getPlanRecord "plans/plan-1"])
  ∧ countLogChunks [RemoteCall.getPlanRecord "plans/plan-1"] =
      countLogChunks [] :=
  logs_invalid_url envBadURL "plan-1" []
    [RemoteCall.getPlanRecord "plans/plan-1"] samplePlan
    (GoErr.requestBuild "parse: invalid control character")
    rfl (by decide) rfl

/-- C7: when the raw body of plans/<id>/json-output-redacted is fetched
but json.Unmarshal rejects it, ReadResourceChanges returns a nil result
and the decode error immediately, after exactly one request (no retry). -/
theorem resource_changes_decode_error (env : ClientEnv) (pID : String)
    (w : List RemoteCall) (bs : List Nat) (e : GoErr)
    (hv : env.validStringID pID = true)
    (hreq : env.newRequestFails
      ("plans/" ++ env.queryEscape pID ++ "/json-output-redacted") = none)
    (hraw : env.doRaw w.length
      ("plans/" ++ env.queryEscape pID ++ "/json-output-redacted") =
        Except.ok bs)
    (hdec : env.unmarshalResourceChanges bs = Except.error e) :
    plansReadResourceChanges env pID w =
      (Except.error e,
       w ++ [RemoteCall.getRawBody
         ("plans/" ++ env.queryEscape pID ++ "/json-output-redacted")]) := by
  unfold plansReadResourceChanges
  rw [hv]
  simp only [Bool.true_eq_false, if_false]
  rw [hreq, hraw]
  dsimp only
  rw [hdec]

/-- Witness for C7: a concrete malformed body is fatal after a single
request. -/
theorem resource_changes_decode_error_witness :
    plansReadResourceChanges envOk "plan-1" [] =
      (Except.error (GoErr.jsonDecode "invalid character"),
       [RemoteCall.getRawBody "plans/plan-1/json-output-redacted"]) :=
  resource_changes_decode_error envOk "plan-1" [] [123, 125]
    (GoErr.jsonDecode "invalid character") rfl rfl rfl rfl

/-- C9: ReadJSONOutput returns the fetched body bytes unchanged and never
decodes them: even when json.Unmarshal would reject the body (hmal), the
call succeeds with exactly those bytes. -/
theorem json_output_returns_raw_bytes (env : ClientEnv) (pID : String)
    (w : List RemoteCall) (bs : List Nat) (e : GoErr)
    (hv : env.validStringID pID = true)
    (hreq : env.newRequestFails
      ("plans/" ++ env.queryEscape pID ++ "/json-output") = none)
    (hraw : env.doRaw w.length
      ("plans/" ++ env.queryEscape pID ++ "/json-output") = Except.ok bs)
    (hmal : env.unmarshalResourceChanges bs = Except.error e) :
    plansReadJSONOutput env pID w =
      (Except.ok bs,
       w ++ [RemoteCall.getRawBody
         ("plans/" ++ env.queryEscape pID ++ "/json-output")]) := by
  unfold plansReadJSONOutput
  rw [hv]
  simp only [Bool.true_eq_false, if_false]
  rw [hreq, hraw]

/-- Witness for C9: the body that ReadResourceChanges rejects is returned
verbatim by ReadJSONOutput with no error. -/
theorem json_output_returns_raw_bytes_witness :
    plansReadJSONOutput envOk "plan-1" [] =
      (Except.ok [123, 125],
       [RemoteCall.getRawBody "plans/plan-1/json-output"]) :=
  json_output_returns_raw_bytes envOk "plan-1" [] [123, 125]
    (GoErr.jsonDecode "invalid character") rfl rfl rfl rfl

/-- k successive calls of the `done` closure, threading the world trace:
iterateDone k w is the trace after the k-th call. -/
def iterateDone (env : ClientEnv) (pID : String) :
    Nat → List RemoteCall → List RemoteCall
  | 0, w => w
  | Nat.succ k, w => iterateDone env pID k (logsDone env pID w).2

/-- Helper: one call of the `done` closure appends exactly one
plan-record fetch to the trace, whatever the response was. -/
theorem logsDone_world (env : ClientEnv) (pID : String)
    (w : List RemoteCall)
    (hv : env.validStringID pID = true)
    (hreq : env.newRequestFails ("plans/" ++ env.queryEscape pID) = none) :
    (logsDone env pID w).2 =
      w ++ [RemoteCall.getPlanRecord ("plans/" ++ env.queryEscape pID)] := by
  unfold logsDone plansRead
  rw [hv]
  simp only [Bool.true_eq_false, if_false]
  rw [hreq]
  dsimp only
  cases hdo : env.doPlan w.length ("plans/" ++ env.queryEscape pID) with
  | error e => rfl
  | ok p =>
    obtain ⟨pid, hc, gc, url, ra, rc, rd, ri, status, ts, ex⟩ := p
    cases status <;> rfl

/-- C8: the `done` closure memoizes nothing: after k calls the trace has
gained exactly k plan-record fetches, one per call (the k-th call issues
the k-th status fetch). -/
theorem done_fresh_fetch_per_call (env : ClientEnv) (pID : String)
    (k : Nat) (w : List RemoteCall)
    (hv : env.validStringID pID = true)
    (hreq : env.newRequestFails ("plans/" ++ env.queryEscape pID) = none) :
    iterateDone env pID k w =
      w ++ List.replicate k
        (RemoteCall.getPlanRecord ("plans/" ++ env.queryEscape pID)) := by
  induction k generalizing w with
  | zero => simp [iterateDone]
  | succ k ih =>
    rw [iterateDone, logsDone_world env pID w hv hreq, ih]
    simp [List.replicate_succ]

/-- Witness for C8: three oracle calls in envOk issue exactly three
status fetches. -/
theorem done_fresh_fetch_per_call_witness :
    iterateDone envOk "plan-1" 3 [] =
      List.replicate 3 (RemoteCall.getPlanRecord "plans/plan-1") := by
  have h := done_fresh_fetch_per_call envOk "plan-1" 3 [] rfl rfl
  simpa using h

/-- Modelled from the spec: the mutable state of the LogStreamReader of
spec sections 3-4 (the LogReader read method lives in logreader.go, which
is not under src/): a byte offset marking how much of the remote log has
been consumed, and the terminal flag set once end-of-stream has been
confirmed. -/
structure LogStreamState where
  offset : Nat
  terminal : Bool
deriving DecidableEq, Repr

/-- Modelled from the spec: the collaborators of one read call of the
LogStreamReader.  `fetchChunk t off` is the fetchRange collaborator of
spec section 6, returning the log bytes available from offset `off` at
poll instant t; `oracle t` is the completion oracle answer at instant t,
as the pair (isDone, error) returned by the `done` closure. -/
structure StreamEnv where
  fetchChunk : Nat → Nat → Except GoErr (List Nat)
  oracle : Nat → Bool × Option GoErr

/-- The observable outcome of one read call of the stream reader.
`stillPolling` marks an unfinished polling loop (fuel ran out while the
job was still non-terminal with no new bytes). -/
inductive ReadOutcome where
  | chunk (bs : List Nat) : ReadOutcome
  | endOfStream : ReadOutcome
  | failed (e : GoErr) : ReadOutcome
  | stillPolling : ReadOutcome
deriving DecidableEq, Repr

/-- Modelled from the spec: one read call of the LogStreamReader (spec
section 4.2 algorithm, steps 1-5).  If the terminal flag is set, return
end-of-stream at once.  Otherwise fetch the next chunk from the current
offset; a fetch error is propagated; a nonzero chunk is delivered
immediately, advancing the offset, with no oracle consultation; a
zero-byte fetch consults the oracle: an oracle error is propagated, a
terminal answer sets the flag and returns end-of-stream, and a
non-terminal answer retries after the inter-poll sleep (one unit of
fuel).  Each remote call advances the poll instant t. -/
def logStreamRead (env : StreamEnv) :
    Nat → LogStreamState → Nat → ReadOutcome × LogStreamState × Nat
  | 0, st, t => (ReadOutcome.stillPolling, st, t)
  | Nat.succ fuel, st, t =>
    if st.terminal then (ReadOutcome.endOfStream, st, t)
    else
      match env.fetchChunk t st.offset with
      | Except.error e => (ReadOutcome.failed e, st, t + 1)
      | Except.ok bs =>
        if bs.length = 0 then
          match env.oracle (t + 1) with
          | (_, some e) => (ReadOutcome.failed e, st, t + 2)
          | (true, none) =>
            (ReadOutcome.endOfStream, { st with terminal := true }, t + 2)
          | (false, none) => logStreamRead env fuel st (t + 2)
        else
          (ReadOutcome.chunk bs,
           { st with offset := st.offset + bs.length }, t + 1)

/-- C2: end-of-stream needs both conditions on the same iteration.
First conjunct: a nonzero chunk still fetchable after the oracle already
answers terminal is delivered to the caller (end-of-stream is not
declared).  Second conjunct: whenever a read with the terminal flag not
yet set declares end-of-stream, some poll instant saw a zero-byte fetch
at the current offset AND a terminal oracle answer together. -/
theorem read_eof_needs_both (env : StreamEnv) (st : LogStreamState)
    (t fuel : Nat) (hterm : st.terminal = false) :
    (∀ bs, env.fetchChunk t st.offset = Except.ok bs → bs ≠ [] →
       env.oracle (t + 1) = (true, none) →
       logStreamRead env (fuel + 1) st t =
         (ReadOutcome.chunk bs,
          { st with offset := st.offset + bs.length }, t + 1))
  ∧ (∀ st2 t2,
       logStreamRead env fuel st t = (ReadOutcome.endOfStream, st2, t2) →
       ∃ t0, env.fetchChunk t0 st.offset = Except.ok [] ∧
             env.oracle (t0 + 1) = (true, none)) := by
  constructor
  · intro bs hfetch hne _
    rw [logStreamRead, if_neg (by simp [hterm]), hfetch]
    dsimp only
    rw [if_neg (by simpa using hne)]
  · induction fuel generalizing t with
    | zero =>
      intro st2 t2 h
      rw [logStreamRead] at h
      simp at h
    | succ fuel ih =>
      intro st2 t2 h
      rw [logStreamRead, if_neg (by simp [hterm])] at h
      cases hfetch : env.fetchChunk t st.offset with
      | error e => rw [hfetch] at h; simp at h
      | ok bs =>
        rw [hfetch] at h
        dsimp only at h
        by_cases hlen : bs.length = 0
        · rw [if_pos hlen] at h
          cases horacle : env.oracle (t + 1) with
          | mk b oe =>
            cases oe with
            | some e => rw [horacle] at h; simp at h
            | none =>
              cases b with
              | true =>
                refine ⟨t, ?_, horacle⟩
                rw [hfetch, List.length_eq_zero.mp hlen]
              | false =>
                rw [horacle] at h
                exact ih (t + 2) st2 t2 h
        · rw [if_neg hlen] at h
          simp at h

/-- A concrete stream schedule for the C2 witness: the job is already
terminal at every instant, yet one final chunk is still fetchable at
instant 0. -/
def streamEnvW : StreamEnv :=
  { fetchChunk := fun t _ =>
      if t = 0 then Except.ok [104, 105] else Except.ok []
    oracle := fun _ => (true, none) }

/-- Witness for C2: the trailing chunk that raced the terminal status
flip is delivered before end-of-stream is declared. -/
theorem read_eof_needs_both_witness :
    logStreamRead streamEnvW 1 { offset := 0, terminal := false } 0 =
      (ReadOutcome.chunk [104, 105],
       { offset := 2, terminal := false }, 1) :=
  (read_eof_needs_both streamEnvW
      { offset := 0, terminal := false } 0 0 rfl).1
    [104, 105] rfl (by decide) rfl
